import Mathlib

/-!
Verification of the simulation loop in src/source/fmusim/fmusim.c (function
fmuSimulate) of the fmusdk repository.

The real-valued (C double) quantities are modelled as rationals: the claims
checked here concern control flow, sign tests, clamping and bookkeeping, all
of which the loop performs with exact comparisons and assignments.  The FMU
is a black box behind a function-pointer table; it is modelled by a `Model`
record of pure state-passing operations over an abstract internal state.
Line numbers in the comments refer to src/source/fmusim/fmusim.c.
-/

/-- fmiStatus return codes (FMI 1.0 enumeration order): fmiOK = 0,
fmiWarning = 1, fmiDiscard = 2, fmiError = 3, fmiFatal = 4. -/
abbrev FmiStatus := ℕ

def fmiOK : FmiStatus := 0

def fmiWarning : FmiStatus := 1

def fmiDiscard : FmiStatus := 2

def fmiError : FmiStatus := 3

def fmiFatal : FmiStatus := 4

/-- The test the loop applies to every returned status: fmiFlag > fmiWarning
(lines 83, 101, 103, 112, 117, 122, 127, 152). -/
def worse (s : FmiStatus) : Bool := decide (fmiWarning < s)

/-- fmiEventInfo (declared at line 30, written by initialize and eventUpdate):
the fields the loop reads. -/
structure EventInfo where
  terminateSimulation : Bool
  stateValuesChanged : Bool
  stateValueReferencesChanged : Bool
  upcomingTimeEvent : Bool
  nextEventTime : ℚ

/-- The FMU capability set consumed by the loop (the function pointers of the
FMU struct that fmuSimulate calls).  Each operation returns a status and
threads an abstract model-internal state of type σ.  `fmiInit` models
fmu->initialize (line 84); the name differs from the source because the
source name is unavailable in this development. -/
structure Model (σ : Type) where
  setTime : σ → ℚ → FmiStatus × σ
  fmiInit : σ → FmiStatus × EventInfo × σ
  getContinuousStates : σ → FmiStatus × List ℚ × σ
  getDerivatives : σ → FmiStatus × List ℚ × σ
  setContinuousStates : σ → List ℚ → FmiStatus × σ
  completedIntegratorStep : σ → FmiStatus × Bool × σ
  getEventIndicators : σ → FmiStatus × List ℚ × σ
  eventUpdate : σ → FmiStatus × EventInfo × σ

/-- The C macro min(a,b) = (a > b ? b : a) (line 12). -/
def cmin (a b : ℚ) : ℚ := if b < a then b else a

/-- A model operation fills the caller's length-n buffer; entry i of the
filled buffer is entry i of what the model wrote (a conforming FMU writes all
n entries, so the default 0 is never consulted for it). -/
def fillBuf (n : ℕ) (ret : List ℚ) : List ℚ :=
  (List.range n).map fun i => ret.getD i 0

/-- Lines 106-110: the candidate next time is min(simtime + h, tEnd); a time
event fires iff eventInfo.upcomingTimeEvent && eventInfo.nextEventTime <
candidate, in which case simtime is clamped to nextEventTime.  Returns the
new simtime and the timeEvent flag. -/
def advanceTime (tPre h tEnd : ℚ) (ei : EventInfo) : ℚ × Bool :=
  let cand := cmin (tPre + h) tEnd
  let te := ei.upcomingTimeEvent && decide (ei.nextEventTime < cand)
  (if te = true then ei.nextEventTime else cand, te)

/-- Lines 128-130: stateEvent starts FALSE and is or-ed with
prez[i] * z[i] < 0 for i = 0 .. nz-1. -/
def detectStateEvent (nz : ℕ) (prez z : List ℚ) : Bool :=
  (List.range nz).foldl (fun acc i => acc || decide (prez.getD i 0 * z.getD i 0 < 0)) false

/-- Line 115: forward Euler, x[i] += dt * xdot[i] for i = 0 .. nx-1. -/
def eulerStep (x xdot : List ℚ) (dt : ℚ) : List ℚ :=
  List.zipWith (fun a b => a + dt * b) x xdot

/-- The loop-carried state of fmuSimulate: the clock, the two indicator
generations, the event info in effect, the counters (lines 38-41), the times
of the emitted value rows, and the model-internal state. -/
structure SimState (σ : Type) where
  simtime : ℚ
  z : List ℚ
  prez : List ℚ
  eventInfo : EventInfo
  nSteps : ℕ
  nTimeEvents : ℕ
  nStateEvents : ℕ
  nStepEvents : ℕ
  rows : List ℚ
  modelState : σ

/-- How one loop iteration ends: an error return out of the whole function
(the `return fmuError(...)` statements), the termination break at line 157,
or falling through to the next iteration. -/
inductive StepOutcome (σ : Type) where
  | abort : SimState σ → StepOutcome σ
  | brk : SimState σ → StepOutcome σ
  | next : SimState σ → StepOutcome σ

/-- The state carried by any step outcome. -/
def stepState {σ : Type} : StepOutcome σ → SimState σ
  | .abort st => st
  | .brk st => st
  | .next st => st

/-- Lines 171-173: outputRow(fmu, c, simtime, ...) when a file is open, then
nSteps++ (the counter increments whether or not output is produced). -/
def emitRow {σ : Type} (sink : Bool) (st : SimState σ) : SimState σ :=
  { st with
    rows := if sink = true then st.rows ++ [st.simtime] else st.rows,
    nSteps := st.nSteps + 1 }

/-- Lines 132-173: the event-handling block.  If any of the three flags is
set, the counters are incremented, one eventUpdate is performed (aborting on
a bad status), and a termination request breaks out of the loop before the
row for this step is written; otherwise (and after uneventful updates) the
row is emitted and the step counter incremented. -/
def handleEvents {σ : Type} (m : Model σ) (sink timeEvent stateEvent stepEvent : Bool)
    (st : SimState σ) : StepOutcome σ :=
  if (timeEvent || stateEvent || stepEvent) = true then
    let st7 := { st with
      nTimeEvents := st.nTimeEvents + (if timeEvent = true then 1 else 0),
      nStateEvents := st.nStateEvents + (if stateEvent = true then 1 else 0),
      nStepEvents := st.nStepEvents + (if stepEvent = true then 1 else 0) }
    let r7 := m.eventUpdate st7.modelState
    let st8 := { st7 with eventInfo := r7.2.1, modelState := r7.2.2 }
    if worse r7.1 = true then .abort st8 else
    if r7.2.1.terminateSimulation = true then .brk st8 else
    .next (emitRow sink st8)
  else .next (emitRow sink st)

/-- Lines 124-130: copy z into prez, sample the indicators (aborting on a bad
status), detect a state event, then hand over to the event block. -/
def sampleIndicators {σ : Type} (m : Model σ) (nz : ℕ) (sink timeEvent stepEvent : Bool)
    (st : SimState σ) : StepOutcome σ :=
  let prez2 := fillBuf nz st.z
  let r6 := m.getEventIndicators st.modelState
  let st6 := { st with prez := prez2, z := fillBuf nz r6.2.1, modelState := r6.2.2 }
  if worse r6.1 = true then .abort st6 else
  handleEvents m sink timeEvent (detectStateEvent nz prez2 (fillBuf nz r6.2.1)) stepEvent st6

/-- Lines 120-122: completedIntegratorStep, aborting on a bad status. -/
def checkStepEvent {σ : Type} (m : Model σ) (nz : ℕ) (sink timeEvent : Bool)
    (st : SimState σ) : StepOutcome σ :=
  let r5 := m.completedIntegratorStep st.modelState
  let st5 := { st with modelState := r5.2.2 }
  if worse r5.1 = true then .abort st5 else
  sampleIndicators m nz sink timeEvent r5.2.1 st5

/-- Lines 105-118: advance simtime (clamping to a pending time event),
setTime — whose bad status is only logged, there is no return at line 112 —
then the Euler step and setContinuousStates, aborting on a bad status. -/
def advanceAndIntegrate {σ : Type} (m : Model σ) (tEnd h : ℚ) (nz : ℕ) (sink : Bool)
    (x xdot : List ℚ) (st : SimState σ) : StepOutcome σ :=
  let a := advanceTime st.simtime h tEnd st.eventInfo
  let dt := a.1 - st.simtime
  let r3 := m.setTime st.modelState a.1
  let st3 := { st with simtime := a.1, modelState := r3.2 }
  let r4 := m.setContinuousStates st3.modelState (eulerStep x xdot dt)
  let st4 := { st3 with modelState := r4.2 }
  if worse r4.1 = true then .abort st4 else
  checkStepEvent m nz sink a.2 st4

/-- One iteration of the while loop, lines 98-174: read states and
derivatives (aborting on a bad status), then the advance/integrate, step
event, indicator and event-handling stages above. -/
def simStep {σ : Type} (m : Model σ) (tEnd h : ℚ) (nx nz : ℕ) (sink : Bool)
    (st : SimState σ) : StepOutcome σ :=
  let r1 := m.getContinuousStates st.modelState
  let st1 := { st with modelState := r1.2.2 }
  if worse r1.1 = true then .abort st1 else
  let r2 := m.getDerivatives st1.modelState
  let st2 := { st1 with modelState := r2.2.2 }
  if worse r2.1 = true then .abort st2 else
  advanceAndIntegrate m tEnd h nz sink (fillBuf nx r1.2.1) (fillBuf nx r2.2.1) st2

/-- How the whole while loop ends: normally or by break (both fall through to
the cleanup block), by an error return from inside the loop, or with the
iteration budget exhausted (an artifact of the fuel-based embedding). -/
inductive RunOutcome (σ : Type) where
  | ok : SimState σ → RunOutcome σ
  | aborted : SimState σ → RunOutcome σ
  | fuelOut : SimState σ → RunOutcome σ

/-- The state carried by any run outcome. -/
def outState {σ : Type} : RunOutcome σ → SimState σ
  | .ok st => st
  | .aborted st => st
  | .fuelOut st => st

/-- The while loop, line 98: iterate while simtime < tEnd. -/
def simLoop {σ : Type} (m : Model σ) (tEnd h : ℚ) (nx nz : ℕ) (sink : Bool) :
    ℕ → SimState σ → RunOutcome σ
  | 0, st => .fuelOut st
  | fuel + 1, st =>
    if st.simtime < tEnd then
      match simStep m tEnd h nx nz sink st with
      | .abort st2 => .aborted st2
      | .brk st2 => .ok st2
      | .next st2 => simLoop m tEnd h nx nz sink fuel st2
    else .ok st

/-- The state the loop starts from (lines 57-95): simtime = t0 = 0, the z and
prez buffers calloc-ed to zeros (lines 60-61), the event info produced by
initialize, the counters at 0, and — when a file is open — one value row
already written for t0 (line 94; the column-name header written at line 93 is
not counted as a value row). -/
def initState {σ : Type} (nz : ℕ) (ei : EventInfo) (sink : Bool) (s : σ) : SimState σ :=
  { simtime := 0
    z := List.replicate nz 0
    prez := List.replicate nz 0
    eventInfo := ei
    nSteps := 0
    nTimeEvents := 0
    nStateEvents := 0
    nStepEvents := 0
    rows := if sink = true then [0] else []
    modelState := s }

/-- The observable result of fmuSimulate: the C return value (1 success, 0
failure), whether fmu->freeModelInstance(c) was executed (line 179), whether
fclose(file) was executed (lines 180-181), and the final loop state. -/
structure SimResult (σ : Type) where
  retcode : ℕ
  instanceFreed : Bool
  fileClosed : Bool
  final : SimState σ

/-- Maps the loop outcome to the function result.  Normal completion and the
termination break fall through the loop into the cleanup block (lines
178-186) and return 1 (line 200); the error paths inside the loop (lines
101, 103, 117, 122, 127, 152) return 0 directly from within the loop, so
freeModelInstance and fclose are not executed on them.  A fuel-exhausted run
yields none. -/
def finishRun {σ : Type} (sink : Bool) : RunOutcome σ → Option (SimResult σ)
  | .ok st => some ⟨1, true, sink, st⟩
  | .aborted st => some ⟨0, false, false, st⟩
  | .fuelOut _ => none

/-- An event info with no pending events, used as the placeholder final-state
content on the pre-loop abort path, where no event info exists yet. -/
def eiQuiet : EventInfo := ⟨false, false, false, false, 0⟩

/-- An event info with a pending time event at time t. -/
def eiTime (t : ℚ) : EventInfo := ⟨false, false, false, true, t⟩

/-- An event info requesting termination. -/
def eiTerm : EventInfo := ⟨true, false, false, false, 0⟩

/-- fmuSimulate from line 81 on (instantiation, allocation and file opening,
lines 45-78, concern model acquisition and are outside the loop's logic;
`sink` stands for file != NULL).  Line 82-83: setTime(c, t0) with an abort on
a status worse than warning.  Line 84-85: initialize; a bad status is only
logged — there is no return.  Lines 86-89: a termination request at
initialization sets tEnd to the current time t0 = 0.  Then the initial row
(lines 92-95) and the loop. -/
def fmuSimulate {σ : Type} (m : Model σ) (s0 : σ) (tEnd h : ℚ) (nx nz : ℕ)
    (sink : Bool) (fuel : ℕ) : Option (SimResult σ) :=
  let r0 := m.setTime s0 0
  if worse r0.1 = true then some ⟨0, false, false, initState 0 eiQuiet false r0.2⟩ else
  let r1 := m.fmiInit r0.2
  let tEnd2 := if r1.2.1.terminateSimulation = true then 0 else tEnd
  finishRun sink (simLoop m tEnd2 h nx nz sink fuel (initState nz r1.2.1 sink r1.2.2))

/-- Bool check: every listed row time is at most b. -/
def rowsLe {σ : Type} (b : ℚ) (st : SimState σ) : Bool :=
  st.rows.all fun t => decide (t ≤ b)

/-- Bool check on a run result: the final time and every emitted row time are
at most tEnd. -/
def timesBounded {σ : Type} (tEnd : ℚ) : Option (SimResult σ) → Bool
  | some res => decide (res.final.simtime ≤ tEnd) && rowsLe tEnd res.final
  | none => true

/-- Bool check relating the step counter across one iteration: it grows by
exactly one when the iteration falls through to the next one, and is
unchanged when the iteration ends in the termination break or an error
return. -/
def stepCounterOk {σ : Type} (st : SimState σ) : StepOutcome σ → Bool
  | .next st2 => st2.nSteps == st.nSteps + 1
  | .brk st2 => st2.nSteps == st.nSteps
  | .abort st2 => st2.nSteps == st.nSteps

/-- Bool check relating the emitted rows across one iteration (with an open
sink): exactly one row, stamped with the iteration's new time, is appended
when the iteration falls through; no row is appended when the iteration ends
in the termination break or an error return. -/
def rowsStepOk {σ : Type} (st : SimState σ) : StepOutcome σ → Bool
  | .next st2 => st2.rows == st.rows ++ [st2.simtime]
  | .brk st2 => st2.rows == st.rows
  | .abort st2 => st2.rows == st.rows

/-- Bool check on a run result: freeModelInstance and fclose executed exactly
on the success return path. -/
def cleanupOk {σ : Type} (sink : Bool) : Option (SimResult σ) → Bool
  | some res => (res.instanceFreed == (res.retcode == 1))
      && (res.fileClosed == ((res.retcode == 1) && sink))
  | none => true

/-- A configurable concrete model over a trivial internal state: setTime
status as a function of the time argument, a fixed getContinuousStates
status, fixed event-indicator values, a fixed event info from initialize and
a fixed event info from eventUpdate.  All other operations succeed. -/
def testModel (stS : ℚ → FmiStatus) (gcsS : FmiStatus) (zs : List ℚ)
    (iEI uEI : EventInfo) : Model Unit where
  setTime := fun s t => (stS t, s)
  fmiInit := fun s => (fmiOK, iEI, s)
  getContinuousStates := fun s => (gcsS, [], s)
  getDerivatives := fun s => (fmiOK, [], s)
  setContinuousStates := fun s _ => (fmiOK, s)
  completedIntegratorStep := fun s => (fmiOK, false, s)
  getEventIndicators := fun s => (fmiOK, zs, s)
  eventUpdate := fun s => (fmiOK, uEI, s)

/-- A model on which every operation succeeds and reports no events. -/
def okModel : Model Unit := testModel (fun _ => fmiOK) fmiOK [] eiQuiet eiQuiet

/-- A model whose setTime succeeds at t = 0 and returns fmiError at any other
time; everything else succeeds with no events. -/
def c3model : Model Unit :=
  testModel (fun t => if t = 0 then fmiOK else fmiError) fmiOK [] eiQuiet eiQuiet

/-- A model with a pending time event at t = 1/2 from initialization whose
discrete update requests termination. -/
def c4model : Model Unit := testModel (fun _ => fmiOK) fmiOK [] (eiTime (1/2)) eiTerm

/-- A model whose getContinuousStates always returns fmiError. -/
def c5model : Model Unit := testModel (fun _ => fmiOK) fmiError [] eiQuiet eiQuiet

/-- A model with one event indicator whose value is the constant 1. -/
def c6model : Model Unit := testModel (fun _ => fmiOK) fmiOK [1] eiQuiet eiQuiet

lemma cmin_le_right (a b : ℚ) : cmin a b ≤ b := by
  unfold cmin
  split_ifs with h
  · exact le_refl b
  · exact le_of_not_lt h

lemma cmin_eq_min (a b : ℚ) : cmin a b = min a b := by
  unfold cmin
  rw [min_def]
  split_ifs with h1 h2 h2 <;> linarith

lemma advanceTime_fst_le (tPre h tEnd : ℚ) (ei : EventInfo) :
    (advanceTime tPre h tEnd ei).1 ≤ tEnd := by
  unfold advanceTime
  dsimp only
  split_ifs with hte
  · have h2 : ei.nextEventTime < cmin (tPre + h) tEnd :=
      of_decide_eq_true ((Bool.and_eq_true _ _).mp hte).2
    exact le_trans h2.le (cmin_le_right _ _)
  · exact cmin_le_right _ _

lemma advanceTime_fst_ge (tPre h tEnd : ℚ) (ei : EventInfo) (h0 : 0 < h)
    (hlt : tPre < tEnd)
    (hev : ei.upcomingTimeEvent = true → tPre ≤ ei.nextEventTime) :
    tPre ≤ (advanceTime tPre h tEnd ei).1 := by
  unfold advanceTime
  dsimp only
  split_ifs with hte
  · exact hev ((Bool.and_eq_true _ _).mp hte).1
  · unfold cmin
    split_ifs with h2 <;> linarith

lemma foldl_or (p : ℕ → Bool) :
    ∀ (l : List ℕ) (b : Bool), l.foldl (fun acc i => acc || p i) b = (b || l.any p)
  | [], b => by simp
  | i :: l, b => by
      rw [List.foldl_cons, foldl_or p l (b || p i), List.any_cons, Bool.or_assoc]

lemma detect_eq_any (nz : ℕ) (prez z : List ℚ) :
    detectStateEvent nz prez z
      = (List.range nz).any fun i => decide (prez.getD i 0 * z.getD i 0 < 0) := by
  unfold detectStateEvent
  rw [foldl_or, Bool.false_or]

lemma getD_replicate_zero : ∀ (n i : ℕ), (List.replicate n (0:ℚ)).getD i 0 = 0
  | 0, _ => by simp [List.getD]
  | n + 1, 0 => by simp [List.replicate, List.getD]
  | n + 1, i + 1 => by
      rw [List.replicate]
      simp [List.getD]

lemma fillBuf_replicate_zero (n m : ℕ) :
    fillBuf n (List.replicate m 0) = List.replicate n (0:ℚ) := by
  unfold fillBuf
  induction n with
  | zero => simp
  | succ k ih =>
      rw [List.range_succ, List.map_append, ih, List.replicate_succ']
      simp [getD_replicate_zero]

lemma detect_replicate_zero (nz : ℕ) (zs : List ℚ) :
    detectStateEvent nz (List.replicate nz 0) zs = false := by
  rw [detect_eq_any]
  rw [Bool.eq_false_iff]
  intro hc
  rw [List.any_eq_true] at hc
  obtain ⟨i, _, hp⟩ := hc
  rw [getD_replicate_zero] at hp
  simp at hp

lemma getD_zipWith (f : ℚ → ℚ → ℚ) :
    ∀ (x y : List ℚ) (i : ℕ), i < x.length → i < y.length →
      (List.zipWith f x y).getD i 0 = f (x.getD i 0) (y.getD i 0)
  | [], _, i, hx, _ => by simp at hx
  | _ :: _, [], i, _, hy => by simp at hy
  | a :: x, b :: y, 0, _, _ => by simp [List.getD]
  | a :: x, b :: y, i + 1, hx, hy => by
      simpa [List.getD] using
        getD_zipWith f x y i (by simpa using hx) (by simpa using hy)

lemma zipWith_euler_zero :
    ∀ (x y : List ℚ), x.length = y.length →
      List.zipWith (fun a b => a + (0:ℚ) * b) x y = x
  | [], [], _ => rfl
  | [], _ :: _, h => by simp at h
  | _ :: _, [], h => by simp at h
  | a :: x, b :: y, h => by
      have hxy := zipWith_euler_zero x y (by simpa using h)
      rw [List.zipWith_cons_cons, hxy]
      show (a + 0 * b) :: x = a :: x
      norm_num

/-- C1: if a time event is pending (upcomingTimeEvent set) with scheduled
time T satisfying currentTime < T < min(currentTime + stepSize, endTime),
then the time-advance computation of lines 106-110 sets the next sampled
simulated time to exactly T, sets the time-event flag, and the resulting
dt = newTime - currentTime equals T - currentTime. -/
theorem timeEventClamp (tPre h tEnd : ℚ) (ei : EventInfo)
    (h1 : ei.upcomingTimeEvent = true) (h2 : tPre < ei.nextEventTime)
    (h3 : ei.nextEventTime < min (tPre + h) tEnd) :
    advanceTime tPre h tEnd ei = (ei.nextEventTime, true) ∧
    (advanceTime tPre h tEnd ei).1 - tPre = ei.nextEventTime - tPre := by
  have hc : ei.nextEventTime < cmin (tPre + h) tEnd := by
    rw [cmin_eq_min]; exact h3
  have hte : (ei.upcomingTimeEvent && decide (ei.nextEventTime < cmin (tPre + h) tEnd))
      = true := by
    rw [h1, decide_eq_true hc, Bool.and_self]
  have hmain : advanceTime tPre h tEnd ei = (ei.nextEventTime, true) := by
    unfold advanceTime
    dsimp only
    rw [hte]
    simp
  exact ⟨hmain, by rw [hmain]⟩

/-- Witness for C1: a pending time event at T = 1/2 with currentTime = 0,
stepSize = 1, endTime = 10 is clamped to exactly 1/2 with the flag set. -/
theorem timeEventClampWitness :
    (eiTime (1/2)).upcomingTimeEvent = true ∧ (0:ℚ) < (eiTime (1/2)).nextEventTime
    ∧ (eiTime (1/2)).nextEventTime < min ((0:ℚ) + 1) 10
    ∧ advanceTime 0 1 10 (eiTime (1/2)) = ((eiTime (1/2)).nextEventTime, true) :=
  ⟨rfl, by norm_num [eiTime], by norm_num [eiTime],
    (timeEventClamp 0 1 10 (eiTime (1/2)) rfl (by norm_num [eiTime])
      (by norm_num [eiTime])).1⟩

/-- C2: for indicator vectors of common length nz, the state-event flag of
lines 128-130 is true iff some index i < nz has prez[i] * z[i] < 0.  In
particular a value moving from positive to exactly zero, or staying zero,
makes the product zero and never sets the flag, and for nz = 0 the
existential is empty so the flag is always false. -/
theorem detectStateEventIff (nz : ℕ) (prez z : List ℚ)
    (h1 : prez.length = nz) (h2 : z.length = nz) :
    detectStateEvent nz prez z = true
      ↔ ∃ i, i < nz ∧ prez.getD i 0 * z.getD i 0 < 0 := by
  rw [detect_eq_any, List.any_eq_true]
  constructor
  · rintro ⟨i, hi, hp⟩
    exact ⟨i, List.mem_range.mp hi, of_decide_eq_true hp⟩
  · rintro ⟨i, hi, hp⟩
    exact ⟨i, List.mem_range.mpr hi, decide_eq_true hp⟩

/-- Witness for C2 (Scenario D of the spec): previous = [1, -1],
current = [-1/2, -1/2]: index 0 changes sign, so the flag is set. -/
theorem detectStateEventIffWitness :
    ([(1:ℚ), -1]).length = 2 ∧ ([-(1:ℚ)/2, -1/2]).length = 2
    ∧ detectStateEvent 2 [(1:ℚ), -1] [-(1:ℚ)/2, -1/2] = true :=
  ⟨rfl, rfl,
    (detectStateEventIff 2 [(1:ℚ), -1] [-(1:ℚ)/2, -1/2] rfl rfl).mpr
      ⟨0, by norm_num, by norm_num [List.getD]⟩⟩

/-- C9: the integrator step of line 115 computes
newState[i] = state[i] + dt * derivatives[i] for every i < nx; with dt = 0 it
returns the state unchanged; and on nx = 1, state = [0], derivatives = [2],
dt = 1/2 it yields [1]. -/
theorem eulerStepSpec (x xdot : List ℚ) (dt : ℚ) (nx : ℕ)
    (h1 : x.length = nx) (h2 : xdot.length = nx) :
    (∀ i, i < nx → (eulerStep x xdot dt).getD i 0 = x.getD i 0 + dt * xdot.getD i 0)
    ∧ eulerStep x xdot 0 = x
    ∧ eulerStep [0] [2] (1/2) = [1] := by
  refine ⟨fun i hi => ?_, ?_, by norm_num [eulerStep]⟩
  · exact getD_zipWith _ x xdot i (h1 ▸ hi) (h2 ▸ hi)
  · unfold eulerStep
    exact zipWith_euler_zero x xdot (h1.trans h2.symm)

/-- Witness for C9: concrete lengths 1 and the Scenario A evaluation. -/
theorem eulerStepSpecWitness :
    ([(0:ℚ)]).length = 1 ∧ ([(2:ℚ)]).length = 1 ∧ eulerStep [0] [2] (1/2) = [1] :=
  ⟨rfl, rfl, (eulerStepSpec [0] [2] (1/2) 1 rfl rfl).2.2⟩

/-- C3 (code bug evaluated): a model whose setTime succeeds at t = 0 but
returns fmiError at every later time.  The claim (and the spec) say the loop
aborts immediately on any operation status worse than warning, but line 112
lacks the return statement every sibling check has, so the run continues
through both iterations and returns success: retcode 1, 2 completed steps,
final time 2. -/
theorem setTimeErrorIgnored :
    ((fmuSimulate c3model () 2 1 0 0 false 3).map fun r =>
        (r.retcode, r.final.nSteps, r.final.simtime))
      = some (1, 2, 2) := by
  norm_num [fmuSimulate, simLoop, simStep, advanceAndIntegrate, checkStepEvent, sampleIndicators, handleEvents, finishRun, c3model, testModel, initState,
    advanceTime, cmin, eiQuiet, worse, fmiOK, fmiWarning, fmiError, fillBuf,
    detectStateEvent, emitRow]

/-- C4 counterexample: a run with an open sink, a time event at t = 1/2, and
a discrete update that requests termination.  The step that advances time to
1/2 and receives the termination request emits no row: the break at line 157
skips outputRow at line 171, so the run ends with rows = [0] (only the
initial row), nSteps = 0, although simulated time reached 1/2 and the run is
a success.  The claim's promised row for the termination step is missing. -/
theorem terminationStepRowMissing :
    ((fmuSimulate c4model () 10 1 0 0 true 3).map fun r =>
        (r.retcode, r.final.simtime, r.final.nSteps, r.final.rows))
      = some (1, 1/2, 0, [0]) := by
  norm_num [fmuSimulate, simLoop, simStep, advanceAndIntegrate, checkStepEvent, sampleIndicators, handleEvents, finishRun, c4model, testModel, initState,
    advanceTime, cmin, eiQuiet, eiTime, eiTerm, worse, fmiOK, fmiWarning, fillBuf,
    detectStateEvent, emitRow]

/-- C5 counterexample: a model whose getContinuousStates returns fmiError.
The run aborts through the return at line 101, which exits fmuSimulate
without reaching the cleanup block at lines 178-186: the instance is not
freed and the open sink is not closed, contradicting the claim that cleanup
runs on every exit path. -/
theorem abortSkipsCleanup :
    ((fmuSimulate c5model () 1 1 0 0 true 3).map fun r =>
        (r.retcode, r.instanceFreed, r.fileClosed))
      = some (0, false, false) := by
  norm_num [fmuSimulate, simLoop, simStep, advanceAndIntegrate, checkStepEvent, sampleIndicators, handleEvents, finishRun, c5model, testModel, initState,
    advanceTime, cmin, eiQuiet, worse, fmiOK, fmiWarning, fmiError, fillBuf,
    detectStateEvent, emitRow]

/-- C6 (code bug evaluated): with nz = 1 and a model whose indicator is the
constant 1, the first iteration's comparison uses prez = [0] — the
zero-initialized calloc buffer copied at line 125 before any indicator was
ever sampled — not the first actually sampled values [1]; after the first
full iteration prez still holds [0] while z holds the sample [1].  Only from
the second iteration on does prez hold the values sampled in the prior
iteration ([1]). -/
theorem firstComparePrezZero :
    (stepState (simStep c6model 5 1 0 1 false (initState 1 eiQuiet false ()))).prez
        = List.replicate 1 0
    ∧ (stepState (simStep c6model 5 1 0 1 false (initState 1 eiQuiet false ()))).z = [1]
    ∧ (stepState (simStep c6model 5 1 0 1 false
          (stepState (simStep c6model 5 1 0 1 false (initState 1 eiQuiet false ()))))).prez
        = [1] := by
  norm_num [simStep, advanceAndIntegrate, checkStepEvent, sampleIndicators, handleEvents, c6model, testModel, initState, advanceTime, cmin, eiQuiet, worse,
    fmiOK, fmiWarning, fillBuf, detectStateEvent, emitRow, stepState, List.getD,
    List.range_succ]

/-- C7 counterexample: simulated time decreases.  Starting at simtime = 0
with an EventInfo whose pending time event is scheduled at -1 (a time in the
past, which the model may return since line 108 checks only nextEventTime <
candidate and never compares against the current time), the iteration clamps
simulated time to -1 < 0. -/
theorem timeDecreases :
    (stepState (simStep okModel 10 1 0 0 true (initState 0 (eiTime (-1)) true ()))).simtime
      < (initState 0 (eiTime (-1)) true ()).simtime := by
  norm_num [simStep, advanceAndIntegrate, checkStepEvent, sampleIndicators, handleEvents, okModel, testModel, initState, advanceTime, cmin, eiTime, eiQuiet,
    worse, fmiOK, fmiWarning, fillBuf, detectStateEvent, emitRow, stepState]

lemma handleEvents_simtime {σ : Type} (m : Model σ) (sink te se pe : Bool) (st : SimState σ) :
    (stepState (handleEvents m sink te se pe st)).simtime = st.simtime := by
  unfold handleEvents
  dsimp only
  split_ifs <;> simp [stepState, emitRow]

lemma sampleIndicators_simtime {σ : Type} (m : Model σ) (nz : ℕ) (sink te pe : Bool) (st : SimState σ) :
    (stepState (sampleIndicators m nz sink te pe st)).simtime = st.simtime := by
  unfold sampleIndicators
  dsimp only
  split_ifs with h6
  · rfl
  · exact handleEvents_simtime m sink te _ pe _

lemma checkStepEvent_simtime {σ : Type} (m : Model σ) (nz : ℕ) (sink te : Bool) (st : SimState σ) :
    (stepState (checkStepEvent m nz sink te st)).simtime = st.simtime := by
  unfold checkStepEvent
  dsimp only
  split_ifs with h5
  · rfl
  · exact sampleIndicators_simtime m nz sink te _ _

lemma advanceAndIntegrate_simtime {σ : Type} (m : Model σ) (tEnd h : ℚ) (nz : ℕ) (sink : Bool)
    (x xdot : List ℚ) (st : SimState σ) :
    (stepState (advanceAndIntegrate m tEnd h nz sink x xdot st)).simtime
      = (advanceTime st.simtime h tEnd st.eventInfo).1 := by
  unfold advanceAndIntegrate
  dsimp only
  split_ifs with h4
  · rfl
  · exact checkStepEvent_simtime m nz sink _ _

lemma simStep_simtime_cases {σ : Type} (m : Model σ) (tEnd h : ℚ) (nx nz : ℕ) (sink : Bool)
    (st : SimState σ) :
    (stepState (simStep m tEnd h nx nz sink st)).simtime = st.simtime
    ∨ (stepState (simStep m tEnd h nx nz sink st)).simtime
        = (advanceTime st.simtime h tEnd st.eventInfo).1 := by
  unfold simStep
  dsimp only
  split_ifs with h1 h2
  · exact Or.inl rfl
  · exact Or.inl rfl
  · exact Or.inr (advanceAndIntegrate_simtime m tEnd h nz sink _ _ _)

lemma handleEvents_rowsOk {σ : Type} (m : Model σ) (te se pe : Bool) (st : SimState σ) :
    rowsStepOk st (handleEvents m true te se pe st) = true := by
  unfold handleEvents
  dsimp only
  split_ifs <;> simp [rowsStepOk, emitRow, stepState]

lemma sampleIndicators_rowsOk {σ : Type} (m : Model σ) (nz : ℕ) (te pe : Bool) (st : SimState σ) :
    rowsStepOk st (sampleIndicators m nz true te pe st) = true := by
  unfold sampleIndicators
  dsimp only
  split_ifs with h6
  · simp [rowsStepOk]
  · exact handleEvents_rowsOk m te _ pe _

lemma checkStepEvent_rowsOk {σ : Type} (m : Model σ) (nz : ℕ) (te : Bool) (st : SimState σ) :
    rowsStepOk st (checkStepEvent m nz true te st) = true := by
  unfold checkStepEvent
  dsimp only
  split_ifs with h5
  · simp [rowsStepOk]
  · exact sampleIndicators_rowsOk m nz te _ _

lemma advanceAndIntegrate_rowsOk {σ : Type} (m : Model σ) (tEnd h : ℚ) (nz : ℕ)
    (x xdot : List ℚ) (st : SimState σ) :
    rowsStepOk st (advanceAndIntegrate m tEnd h nz true x xdot st) = true := by
  unfold advanceAndIntegrate
  dsimp only
  split_ifs with h4
  · simp [rowsStepOk]
  · exact checkStepEvent_rowsOk m nz _ _

lemma simStep_rowsOk {σ : Type} (m : Model σ) (tEnd h : ℚ) (nx nz : ℕ) (st : SimState σ) :
    rowsStepOk st (simStep m tEnd h nx nz true st) = true := by
  unfold simStep
  dsimp only
  split_ifs with h1 h2
  · simp [rowsStepOk]
  · simp [rowsStepOk]
  · exact advanceAndIntegrate_rowsOk m tEnd h nz _ _ _

lemma handleEvents_counterOk {σ : Type} (m : Model σ) (sink te se pe : Bool) (st : SimState σ) :
    stepCounterOk st (handleEvents m sink te se pe st) = true := by
  unfold handleEvents
  dsimp only
  split_ifs <;> simp [stepCounterOk, emitRow, stepState]

lemma sampleIndicators_counterOk {σ : Type} (m : Model σ) (nz : ℕ) (sink te pe : Bool) (st : SimState σ) :
    stepCounterOk st (sampleIndicators m nz sink te pe st) = true := by
  unfold sampleIndicators
  dsimp only
  split_ifs with h6
  · simp [stepCounterOk]
  · exact handleEvents_counterOk m sink te _ pe _

lemma checkStepEvent_counterOk {σ : Type} (m : Model σ) (nz : ℕ) (sink te : Bool) (st : SimState σ) :
    stepCounterOk st (checkStepEvent m nz sink te st) = true := by
  unfold checkStepEvent
  dsimp only
  split_ifs with h5
  · simp [stepCounterOk]
  · exact sampleIndicators_counterOk m nz sink te _ _

lemma advanceAndIntegrate_counterOk {σ : Type} (m : Model σ) (tEnd h : ℚ) (nz : ℕ) (sink : Bool)
    (x xdot : List ℚ) (st : SimState σ) :
    stepCounterOk st (advanceAndIntegrate m tEnd h nz sink x xdot st) = true := by
  unfold advanceAndIntegrate
  dsimp only
  split_ifs with h4
  · simp [stepCounterOk]
  · exact checkStepEvent_counterOk m nz sink _ _

lemma simStep_counterOk {σ : Type} (m : Model σ) (tEnd h : ℚ) (nx nz : ℕ) (sink : Bool)
    (st : SimState σ) :
    stepCounterOk st (simStep m tEnd h nx nz sink st) = true := by
  unfold simStep
  dsimp only
  split_ifs with h1 h2
  · simp [stepCounterOk]
  · simp [stepCounterOk]
  · exact advanceAndIntegrate_counterOk m tEnd h nz sink _ _ _

lemma handleEvents_rows_cases {σ : Type} (m : Model σ) (sink te se pe : Bool) (st : SimState σ) :
    (stepState (handleEvents m sink te se pe st)).rows = st.rows
    ∨ (stepState (handleEvents m sink te se pe st)).rows
        = st.rows ++ [(stepState (handleEvents m sink te se pe st)).simtime] := by
  unfold handleEvents
  dsimp only
  split_ifs <;> simp [stepState, emitRow]

lemma sampleIndicators_rows_cases {σ : Type} (m : Model σ) (nz : ℕ) (sink te pe : Bool) (st : SimState σ) :
    (stepState (sampleIndicators m nz sink te pe st)).rows = st.rows
    ∨ (stepState (sampleIndicators m nz sink te pe st)).rows
        = st.rows ++ [(stepState (sampleIndicators m nz sink te pe st)).simtime] := by
  unfold sampleIndicators
  dsimp only
  split_ifs with h6
  · exact Or.inl rfl
  · exact handleEvents_rows_cases m sink te _ pe _

lemma checkStepEvent_rows_cases {σ : Type} (m : Model σ) (nz : ℕ) (sink te : Bool) (st : SimState σ) :
    (stepState (checkStepEvent m nz sink te st)).rows = st.rows
    ∨ (stepState (checkStepEvent m nz sink te st)).rows
        = st.rows ++ [(stepState (checkStepEvent m nz sink te st)).simtime] := by
  unfold checkStepEvent
  dsimp only
  split_ifs with h5
  · exact Or.inl rfl
  · exact sampleIndicators_rows_cases m nz sink te _ _

lemma advanceAndIntegrate_rows_cases {σ : Type} (m : Model σ) (tEnd h : ℚ) (nz : ℕ) (sink : Bool)
    (x xdot : List ℚ) (st : SimState σ) :
    (stepState (advanceAndIntegrate m tEnd h nz sink x xdot st)).rows = st.rows
    ∨ (stepState (advanceAndIntegrate m tEnd h nz sink x xdot st)).rows
        = st.rows ++ [(stepState (advanceAndIntegrate m tEnd h nz sink x xdot st)).simtime] := by
  unfold advanceAndIntegrate
  dsimp only
  split_ifs with h4
  · exact Or.inl rfl
  · exact checkStepEvent_rows_cases m nz sink _ _

lemma simStep_rows_cases {σ : Type} (m : Model σ) (tEnd h : ℚ) (nx nz : ℕ) (sink : Bool)
    (st : SimState σ) :
    (stepState (simStep m tEnd h nx nz sink st)).rows = st.rows
    ∨ (stepState (simStep m tEnd h nx nz sink st)).rows
        = st.rows ++ [(stepState (simStep m tEnd h nx nz sink st)).simtime] := by
  unfold simStep
  dsimp only
  split_ifs with h1 h2
  · exact Or.inl rfl
  · exact Or.inl rfl
  · exact advanceAndIntegrate_rows_cases m tEnd h nz sink _ _ _

lemma handleEvents_nse {σ : Type} (m : Model σ) (sink te pe : Bool) (st : SimState σ) :
    (stepState (handleEvents m sink te false pe st)).nStateEvents = st.nStateEvents := by
  unfold handleEvents
  dsimp only
  split_ifs <;> simp_all [stepState, emitRow]

lemma sampleIndicators_nse {σ : Type} (m : Model σ) (nz : ℕ) (sink te pe : Bool) (st : SimState σ)
    (hdet : ∀ zs, detectStateEvent nz (fillBuf nz st.z) zs = false) :
    (stepState (sampleIndicators m nz sink te pe st)).nStateEvents = st.nStateEvents := by
  unfold sampleIndicators
  dsimp only
  rw [hdet]
  split_ifs with h6
  · rfl
  · exact handleEvents_nse m sink te pe _

lemma checkStepEvent_nse {σ : Type} (m : Model σ) (nz : ℕ) (sink te : Bool) (st : SimState σ)
    (hdet : ∀ zs, detectStateEvent nz (fillBuf nz st.z) zs = false) :
    (stepState (checkStepEvent m nz sink te st)).nStateEvents = st.nStateEvents := by
  unfold checkStepEvent
  dsimp only
  split_ifs with h5
  · rfl
  · exact sampleIndicators_nse m nz sink te _ _ hdet

lemma advanceAndIntegrate_nse {σ : Type} (m : Model σ) (tEnd h : ℚ) (nz : ℕ) (sink : Bool)
    (x xdot : List ℚ) (st : SimState σ)
    (hdet : ∀ zs, detectStateEvent nz (fillBuf nz st.z) zs = false) :
    (stepState (advanceAndIntegrate m tEnd h nz sink x xdot st)).nStateEvents
      = st.nStateEvents := by
  unfold advanceAndIntegrate
  dsimp only
  split_ifs with h4
  · rfl
  · exact checkStepEvent_nse m nz sink _ _ hdet

lemma simStep_nse {σ : Type} (m : Model σ) (tEnd h : ℚ) (nx nz : ℕ) (sink : Bool)
    (st : SimState σ)
    (hdet : ∀ zs, detectStateEvent nz (fillBuf nz st.z) zs = false) :
    (stepState (simStep m tEnd h nx nz sink st)).nStateEvents = st.nStateEvents := by
  unfold simStep
  dsimp only
  split_ifs with h1 h2
  · rfl
  · rfl
  · exact advanceAndIntegrate_nse m tEnd h nz sink _ _ _ hdet

lemma simStep_simtime_le {σ : Type} (m : Model σ) (tEnd h : ℚ) (nx nz : ℕ) (sink : Bool)
    (st : SimState σ) (hst : st.simtime ≤ tEnd) :
    (stepState (simStep m tEnd h nx nz sink st)).simtime ≤ tEnd := by
  rcases simStep_simtime_cases m tEnd h nx nz sink st with hc | hc
  · rw [hc]; exact hst
  · rw [hc]; exact advanceTime_fst_le st.simtime h tEnd st.eventInfo

lemma simStep_rows_le {σ : Type} (m : Model σ) (tEnd h : ℚ) (nx nz : ℕ) (sink : Bool)
    (st : SimState σ) (hst : st.simtime ≤ tEnd) (hrows : ∀ t ∈ st.rows, t ≤ tEnd) :
    ∀ t ∈ (stepState (simStep m tEnd h nx nz sink st)).rows, t ≤ tEnd := by
  rcases simStep_rows_cases m tEnd h nx nz sink st with hc | hc
  · rw [hc]; exact hrows
  · rw [hc]
    intro t ht
    rcases List.mem_append.mp ht with h1 | h1
    · exact hrows t h1
    · rw [List.mem_singleton] at h1
      subst h1
      exact simStep_simtime_le m tEnd h nx nz sink st hst

lemma simLoop_bounded {σ : Type} (m : Model σ) (tEnd h : ℚ) (nx nz : ℕ) (sink : Bool) :
    ∀ (fuel : ℕ) (st : SimState σ), st.simtime ≤ tEnd → (∀ t ∈ st.rows, t ≤ tEnd) →
      (outState (simLoop m tEnd h nx nz sink fuel st)).simtime ≤ tEnd
      ∧ ∀ t ∈ (outState (simLoop m tEnd h nx nz sink fuel st)).rows, t ≤ tEnd
  | 0, st, h1, h2 => by
      rw [simLoop]
      exact ⟨h1, h2⟩
  | fuel + 1, st, h1, h2 => by
      rw [simLoop]
      split_ifs with hlt
      · have ha := simStep_simtime_le m tEnd h nx nz sink st h1
        have hb := simStep_rows_le m tEnd h nx nz sink st h1 h2
        rcases hs : simStep m tEnd h nx nz sink st with st2 | st2 | st2
        · rw [hs] at ha hb
          exact ⟨ha, hb⟩
        · rw [hs] at ha hb
          exact ⟨ha, hb⟩
        · rw [hs] at ha hb
          exact simLoop_bounded m tEnd h nx nz sink fuel st2 ha hb
      · exact ⟨h1, h2⟩

lemma run_timesBounded {σ : Type} (m : Model σ) (tEnd2 tEnd h : ℚ) (hle : tEnd2 ≤ tEnd)
    (nx nz : ℕ) (sink : Bool) (fuel : ℕ) (st : SimState σ)
    (h1 : st.simtime ≤ tEnd2) (h2 : ∀ t ∈ st.rows, t ≤ tEnd2) :
    timesBounded tEnd (finishRun sink (simLoop m tEnd2 h nx nz sink fuel st)) = true := by
  obtain ⟨ha, hb⟩ := simLoop_bounded m tEnd2 h nx nz sink fuel st h1 h2
  cases hout : simLoop m tEnd2 h nx nz sink fuel st with
  | ok st2 =>
      rw [hout] at ha hb
      simp only [finishRun, timesBounded, Bool.and_eq_true, decide_eq_true_eq, rowsLe,
        List.all_eq_true]
      exact ⟨le_trans ha hle, fun t ht => le_trans (hb t ht) hle⟩
  | aborted st2 =>
      rw [hout] at ha hb
      simp only [finishRun, timesBounded, Bool.and_eq_true, decide_eq_true_eq, rowsLe,
        List.all_eq_true]
      exact ⟨le_trans ha hle, fun t ht => le_trans (hb t ht) hle⟩
  | fuelOut st2 => simp [finishRun, timesBounded]

lemma initState_facts {σ : Type} (nz : ℕ) (ei : EventInfo) (sink : Bool) (s : σ) (b : ℚ)
    (hb : 0 ≤ b) :
    (initState nz ei sink s).simtime ≤ b ∧ ∀ t ∈ (initState nz ei sink s).rows, t ≤ b := by
  constructor
  · exact hb
  · intro t ht
    dsimp [initState] at ht
    split_ifs at ht
    · rw [List.mem_singleton] at ht; subst ht; exact hb
    · simp at ht

lemma cleanupOk_finishRun {σ : Type} (sink : Bool) (out : RunOutcome σ) :
    cleanupOk sink (finishRun sink out) = true := by
  cases out <;> simp [finishRun, cleanupOk]

/-- C5 amended: cleanup (freeModelInstance, fclose of an open sink) runs
exactly on the success exit paths — normal completion and model-requested
termination, both with return code 1; on a mid-run operation error the
function returns 0 directly from inside the loop (and on the pre-loop
setTime error, from before it) without releasing the instance or closing
the sink. -/
theorem cleanupOnExit {σ : Type} (m : Model σ) (s0 : σ) (tEnd h : ℚ) (nx nz : ℕ)
    (sink : Bool) (fuel : ℕ) :
    cleanupOk sink (fmuSimulate m s0 tEnd h nx nz sink fuel) = true := by
  unfold fmuSimulate
  dsimp only
  split_ifs with hw hterm
  · simp [cleanupOk]
  · exact cleanupOk_finishRun sink _
  · exact cleanupOk_finishRun sink _

/-- C4 amended: with an open sink, exactly one value row (at t = startTime)
is emitted before the loop, and per iteration exactly one row stamped with
the iteration's new time is appended when the iteration runs to completion;
the iteration on which the model requests termination — and any iteration
aborted by an operation error — emits no row, and only a completed
iteration increments the step counter by one. -/
theorem rowAccounting {σ : Type} (m : Model σ) (tEnd h : ℚ) (nx nz : ℕ)
    (ei : EventInfo) (s : σ) (st : SimState σ) :
    (initState nz ei true s).rows = [0]
    ∧ rowsStepOk st (simStep m tEnd h nx nz true st) = true
    ∧ stepCounterOk st (simStep m tEnd h nx nz true st) = true :=
  ⟨rfl, simStep_rowsOk m tEnd h nx nz st, simStep_counterOk m tEnd h nx nz true st⟩

/-- C7 amended: during an iteration started strictly before tEnd with a
positive step size, simulated time does not decrease provided that a pending
time event's scheduled time is not in the past (that is, not earlier than
the current time) — without that proviso the code can move time backwards,
see the counterexample — and the step counter grows by exactly one on an
iteration that runs to completion and is unchanged on a break or abort. -/
theorem timeMonotoneAmended {σ : Type} (m : Model σ) (tEnd h : ℚ) (nx nz : ℕ) (sink : Bool)
    (st : SimState σ) (h0 : 0 < h) (h1 : st.simtime < tEnd)
    (h2 : st.eventInfo.upcomingTimeEvent = true → st.simtime ≤ st.eventInfo.nextEventTime) :
    st.simtime ≤ (stepState (simStep m tEnd h nx nz sink st)).simtime
    ∧ stepCounterOk st (simStep m tEnd h nx nz sink st) = true := by
  constructor
  · rcases simStep_simtime_cases m tEnd h nx nz sink st with hc | hc
    · exact le_of_eq hc.symm
    · rw [hc]
      exact advanceTime_fst_ge st.simtime h tEnd st.eventInfo h0 h1 h2
  · exact simStep_counterOk m tEnd h nx nz sink st

/-- Witness for the amended C7: a concrete iteration from time 0 with a
pending time event at 5, step size 1, tEnd 10. -/
theorem timeMonotoneAmendedWitness :
    (0:ℚ) < 1 ∧ (initState 0 (eiTime 5) true ()).simtime < 10
    ∧ ((initState 0 (eiTime 5) true ()).eventInfo.upcomingTimeEvent = true →
        (initState 0 (eiTime 5) true ()).simtime
          ≤ (initState 0 (eiTime 5) true ()).eventInfo.nextEventTime)
    ∧ ((initState 0 (eiTime 5) true ()).simtime
          ≤ (stepState (simStep okModel 10 1 0 0 true (initState 0 (eiTime 5) true ()))).simtime
       ∧ stepCounterOk (initState 0 (eiTime 5) true ())
          (simStep okModel 10 1 0 0 true (initState 0 (eiTime 5) true ())) = true) :=
  ⟨by norm_num, by norm_num [initState], by norm_num [initState, eiTime],
    timeMonotoneAmended okModel 10 1 0 0 true (initState 0 (eiTime 5) true ())
      (by norm_num) (by norm_num [initState]) (by norm_num [initState, eiTime])⟩

/-- C8: whenever the current time is at most tEnd, the time after one
iteration is still at most tEnd (so simulated time never exceeds tEnd at any
point of the run), and — given endTime at or after the start time 0 — every
run result has final time at most tEnd and every emitted row, the final one
included, stamped at most tEnd. -/
theorem timeNeverExceedsEnd {σ : Type} (m : Model σ) (s0 : σ) (tEnd h : ℚ) (nx nz : ℕ)
    (sink : Bool) (fuel : ℕ) (st : SimState σ) (hst : st.simtime ≤ tEnd) (h0 : 0 ≤ tEnd) :
    (stepState (simStep m tEnd h nx nz sink st)).simtime ≤ tEnd
    ∧ timesBounded tEnd (fmuSimulate m s0 tEnd h nx nz sink fuel) = true := by
  refine ⟨simStep_simtime_le m tEnd h nx nz sink st hst, ?_⟩
  unfold fmuSimulate
  dsimp only
  split_ifs with hw hterm
  · simp [timesBounded, rowsLe, initState, h0]
  · obtain ⟨ha, hb⟩ := initState_facts nz (m.fmiInit (m.setTime s0 0).2).2.1 sink
      (m.fmiInit (m.setTime s0 0).2).2.2 0 le_rfl
    exact run_timesBounded m 0 tEnd h h0 nx nz sink fuel _ ha hb
  · obtain ⟨ha, hb⟩ := initState_facts nz (m.fmiInit (m.setTime s0 0).2).2.1 sink
      (m.fmiInit (m.setTime s0 0).2).2.2 tEnd h0
    exact run_timesBounded m tEnd tEnd h le_rfl nx nz sink fuel _ ha hb

/-- Witness for C8: a concrete run to tEnd = 1 with step size 1. -/
theorem timeNeverExceedsEndWitness :
    (initState 0 eiQuiet true ()).simtime ≤ 1 ∧ (0:ℚ) ≤ 1
    ∧ ((stepState (simStep okModel 1 1 0 0 true (initState 0 eiQuiet true ()))).simtime ≤ 1
       ∧ timesBounded 1 (fmuSimulate okModel () 1 1 0 0 true 3) = true) :=
  ⟨by norm_num [initState], by norm_num,
    timeNeverExceedsEnd okModel () 1 1 0 0 true 3 (initState 0 eiQuiet true ())
      (by norm_num [initState]) (by norm_num)⟩

/-- C10: for any model and any nz, the first loop iteration can never set
the state-event flag: the previous-indicator values used in the first
comparison come from the zero-initialized z buffer (every product is
0 * z[i] = 0, never negative, whatever indicator values the model reports),
so the state-event counter is still 0 after the first iteration. -/
theorem firstStepNoStateEvent {σ : Type} (m : Model σ) (tEnd h : ℚ) (nx nz : ℕ)
    (sink : Bool) (ei : EventInfo) (s : σ) (zs : List ℚ) :
    detectStateEvent nz (fillBuf nz (List.replicate nz 0)) zs = false
    ∧ (stepState (simStep m tEnd h nx nz sink (initState nz ei sink s))).nStateEvents = 0 := by
  constructor
  · rw [fillBuf_replicate_zero]
    exact detect_replicate_zero nz zs
  · have hdet : ∀ zs2, detectStateEvent nz (fillBuf nz (initState nz ei sink s).z) zs2
        = false := by
      intro zs2
      show detectStateEvent nz (fillBuf nz (List.replicate nz 0)) zs2 = false
      rw [fillBuf_replicate_zero]
      exact detect_replicate_zero nz zs2
    exact simStep_nse m tEnd h nx nz sink _ hdet
